import Mathlib

/-!
Verification of the recurring-task scheduling engine of `house-mgmt`.

The engine's data model and algorithms are embedded from the repository:
the entity shapes and the generation / status-update / clearing logic of
`src/docs/05-TECHNICAL-DESIGN.md` (`generate_daily_tasks`,
`update_task_statuses`, `calculate_clear_timestamp`,
`CreateRecurringTaskRequest.validate_due`) and the frontend timing
heuristics of `src/frontend/src/services/timingService.js`.  Instants are
minutes since the civil epoch (UTC); local dates are proleptic-Gregorian
calendar dates.
-/

namespace HouseMgmt

/-- `frequency` field of a recurring task: Daily, Weekly, Monthly. -/
inductive Frequency where
  | Daily
  | Weekly
  | Monthly
deriving DecidableEq, Repr

/-- `overdue_when` field: Immediate, 1 hour, 6 hours, 1 day. -/
inductive OverdueWhen where
  | Immediate
  | OneHour
  | SixHours
  | OneDay
deriving DecidableEq, Repr

/-- `status` field of a daily task instance. -/
inductive Status where
  | Pending
  | Overdue
  | Completed
  | Skipped
  | Cleared
deriving DecidableEq, Repr

/-- A local civil (proleptic Gregorian) calendar date. -/
structure LocalDate where
  year : Nat
  month : Nat
  day : Nat
deriving DecidableEq, Repr

/-- Gregorian leap-year rule. -/
def isLeap (y : Nat) : Bool :=
  y % 4 = 0 && (y % 100 != 0 || y % 400 = 0)

/-- Number of days in a month. -/
def daysInMonth (y m : Nat) : Nat :=
  if m = 2 then (if isLeap y then 29 else 28)
  else if m = 4 || m = 6 || m = 9 || m = 11 then 30
  else 31

/-- A structurally valid calendar date. -/
def LocalDate.valid (d : LocalDate) : Prop :=
  1 ≤ d.month ∧ d.month ≤ 12 ∧ 1 ≤ d.day ∧ d.day ≤ daysInMonth d.year d.month

instance (d : LocalDate) : Decidable d.valid := by
  unfold LocalDate.valid; infer_instance

/-- The calendar successor of a date (`local_date + timedelta(days=1)`). -/
def nextDay (d : LocalDate) : LocalDate :=
  if d.day < daysInMonth d.year d.month then ⟨d.year, d.month, d.day + 1⟩
  else if d.month < 12 then ⟨d.year, d.month + 1, 1⟩
  else ⟨d.year + 1, 1, 1⟩

/-- Days since 0000-03-01 of the proleptic Gregorian calendar
(civil-from-days algorithm, specialised to nonnegative years). -/
def civilDays (d : LocalDate) : Nat :=
  let y := if d.month ≤ 2 then d.year - 1 else d.year
  let era := y / 400
  let yoe := y % 400
  let mp := if d.month ≤ 2 then d.month + 9 else d.month - 3
  let doy := (153 * mp + 2) / 5 + d.day - 1
  let doe := yoe * 365 + yoe / 4 - yoe / 100 + doy
  era * 146097 + doe

/-- A UTC instant, as minutes on the `civilDays` scale. -/
def epochMinutes (d : LocalDate) : Int :=
  (civilDays d : Int) * 1440

/-- The instant `y-m-d hh:mm` UTC, on the `civilDays` minute scale. -/
def utc (y m d hh mm : Nat) : Int :=
  epochMinutes ⟨y, m, d⟩ + hh * 60 + mm

/-- Weekday of a date, as its name; `civilDays` of 1970-01-01 (a Thursday)
is ≡ 1 mod 7, which fixes the mapping below. -/
def weekdayName (d : LocalDate) : String :=
  match civilDays d % 7 with
  | 0 => "Wednesday"
  | 1 => "Thursday"
  | 2 => "Friday"
  | 3 => "Saturday"
  | 4 => "Sunday"
  | 5 => "Monday"
  | _ => "Tuesday"

/-- Decimal value of a digit list (most significant first). -/
def digitsToNat (acc : Nat) : List Char → Option Nat
  | [] => some acc
  | c :: rest =>
      if c.isDigit then digitsToNat (acc * 10 + (c.toNat - 48)) rest
      else none

/-- Parse a nonnegative decimal numeral, as Python's `int(v)` does for the
day-of-month strings stored in `due` (`none` models the `ValueError`). -/
def parseNat (s : String) : Option Nat :=
  match s.toList with
  | [] => none
  | c :: rest => if c.isDigit then digitsToNat 0 (c :: rest) else none

/-- `CreateRecurringTaskRequest.validate_due` (05-TECHNICAL-DESIGN.md):
Daily due must be Morning or Evening; Weekly a weekday name; Monthly a
numeric day 1–31. -/
def validateDue (f : Frequency) (v : String) : Bool :=
  match f with
  | .Daily => v = "Morning" || v = "Evening"
  | .Weekly =>
      v = "Monday" || v = "Tuesday" || v = "Wednesday" || v = "Thursday"
        || v = "Friday" || v = "Saturday" || v = "Sunday"
  | .Monthly =>
      match parseNat v with
      | some day => 1 ≤ day && day ≤ 31
      | none => false

/-- Modelled from the spec: the DueWindowResolver's canonical local
minute-of-day offsets are not implemented anywhere under `src/` (the
backend resolver is absent from the repository; the design doc's entity
example only corroborates Morning = 09:00 local).  Per the spec,
Morning resolves to 09:00 and Evening to 19:00 local for Daily tasks, and
Weekly/Monthly tasks default to the canonical morning slot.  The accepted
descriptor grammar is the source's `validate_due` grammar. -/
def resolveDue (f : Frequency) (v : String) : Option Nat :=
  match f with
  | .Daily =>
      if v = "Morning" then some 540
      else if v = "Evening" then some 1140
      else none
  | .Weekly => if validateDue .Weekly v then some 540 else none
  | .Monthly => if validateDue .Monthly v then some 540 else none

/-- A recurring task definition (read-only input to generation). -/
structure RecurringTask where
  id : Nat
  frequency : Frequency
  due : String
  overdueWhen : OverdueWhen
  active : Bool
deriving DecidableEq, Repr

/-- A daily task instance owned by the engine. -/
structure DailyTask where
  recurringId : Nat
  date : LocalDate
  dueTs : Int
  overdueTs : Int
  clearTs : Int
  status : Status
  completedAt : Option Int
deriving DecidableEq, Repr

/-- Delay in minutes of each `overdue_when` behaviour. -/
def overdueMinutes : OverdueWhen → Int
  | .Immediate => 0
  | .OneHour => 60
  | .SixHours => 360
  | .OneDay => 1440

/-- Conversion of a local wall time to UTC: `off` is the zone's UTC offset
in minutes as a function of the date (America/New_York: −300 in EST,
−240 in EDT), so the UTC instant is the local instant minus the offset. -/
def toUtc (off : LocalDate → Int) (d : LocalDate) (localMin : Nat) : Int :=
  epochMinutes d + localMin - off d

/-- `calculate_clear_timestamp` (05-TECHNICAL-DESIGN.md): Daily clears at
`next_day.replace(hour=5)` taken as a UTC instant (the source comments
"5 AM UTC = midnight EST", hard-coding the EST offset); Weekly is
`due_timestamp + 7 days`; Monthly is `due_timestamp + 30 days`. -/
def clearTimestamp (dueTs : Int) (f : Frequency) (d : LocalDate) : Int :=
  match f with
  | .Daily => epochMinutes (nextDay d) + 5 * 60
  | .Weekly => dueTs + 7 * 1440
  | .Monthly => dueTs + 30 * 1440

/-- The instance written by generation for a definition resolved to local
minute-of-day `m`: due/overdue/clear UTC instants per the design doc, with
`status = Pending`. -/
def mkTask (off : LocalDate → Int) (rt : RecurringTask) (d : LocalDate)
    (m : Nat) : DailyTask :=
  { recurringId := rt.id
    date := d
    dueTs := toUtc off d m
    overdueTs := toUtc off d m + overdueMinutes rt.overdueWhen
    clearTs := clearTimestamp (toUtc off d m) rt.frequency d
    status := .Pending
    completedAt := none }

/-- Frequency-dependent eligibility of a date (`generate_daily_tasks`):
Daily every day, Weekly only on the named weekday, Monthly only when the
day-of-month equals the configured numeric day. -/
def eligibleFreq (rt : RecurringTask) (d : LocalDate) : Bool :=
  match rt.frequency with
  | .Daily => true
  | .Weekly => rt.due = weekdayName d
  | .Monthly =>
      match parseNat rt.due with
      | some n => d.day = n
      | none => false

/-- Whether an instance belongs to the `(sourceDefinitionId, localDate)`
pair. -/
def matchesPair (rid : Nat) (d : LocalDate) (t : DailyTask) : Bool :=
  t.recurringId = rid && t.date = d

/-- Whether the store already holds an instance for the pair. -/
def hasInstance (s : List DailyTask) (rid : Nat) (d : LocalDate) : Bool :=
  s.any (matchesPair rid d)

/-- Number of stored instances for the pair. -/
def pairCount (s : List DailyTask) (rid : Nat) (d : LocalDate) : Nat :=
  s.countP (matchesPair rid d)

/-- A definition generates for a date when it is active, the date is
frequency-eligible, and its due descriptor resolves. -/
def genReady (rt : RecurringTask) (d : LocalDate) : Bool :=
  rt.active && eligibleFreq rt d && (resolveDue rt.frequency rt.due).isSome

/-- Modelled from the spec: the generation Lambda's duplicate handling is
absent from `src/` (the design doc's `generate_daily_tasks` is a docstring
only); the spec prescribes an idempotent upsert keyed by
`(sourceDefinitionId, localDate)`.  One definition's step: insert a fresh
Pending instance unless one already exists for the pair. -/
def genStep (off : LocalDate → Int) (d : LocalDate) (s : List DailyTask)
    (rt : RecurringTask) : List DailyTask :=
  match resolveDue rt.frequency rt.due with
  | some m =>
      if rt.active && eligibleFreq rt d && !hasInstance s rt.id d then
        mkTask off rt d m :: s
      else s
  | none => s

/-- Modelled from the spec: `GenerateForDate(date)` walks every recurring
task definition and applies `genStep`. -/
def generateForDate (off : LocalDate → Int) (d : LocalDate)
    (defs : List RecurringTask) (s : List DailyTask) : List DailyTask :=
  defs.foldl (genStep off d) s

/-- `update_task_statuses` (05-TECHNICAL-DESIGN.md), per instance: Pending
instances with `overdue_at < now()` become Overdue; Overdue instances with
`clear_at < now()` become Cleared; nothing else changes. -/
def updateTaskStatus (now : Int) (t : DailyTask) : DailyTask :=
  if t.status = .Pending && t.overdueTs < now then { t with status := .Overdue }
  else if t.status = .Overdue && t.clearTs < now then { t with status := .Cleared }
  else t

/-- Typed errors of the completion ledger. -/
inductive LedgerError where
  | NotCompleted
  | AlreadyTerminal
deriving DecidableEq, Repr

/-- Modelled from the spec: the status an instance holds as a pure function
of the current time against its stored instants — Pending before
`overdueAtUtc`, Overdue before `clearAtUtc`, Cleared afterwards. -/
def recomputeStatus (now : Int) (t : DailyTask) : Status :=
  if now < t.overdueTs then .Pending
  else if now < t.clearTs then .Overdue
  else .Cleared

/-- Modelled from the spec: the backend `/complete` endpoint is absent from
`src/` (the frontend only issues `PUT /api/daily-tasks/{id}/complete`).
`Complete` is legal from Pending or Overdue, setting `status = Completed`
and `completedAtUtc = now`; it is an idempotent no-op on an already
Completed instance and fails with `AlreadyTerminal` on Cleared/Skipped. -/
def completeTask (now : Int) (t : DailyTask) : Except LedgerError DailyTask :=
  match t.status with
  | .Pending => .ok { t with status := .Completed, completedAt := some now }
  | .Overdue => .ok { t with status := .Completed, completedAt := some now }
  | .Completed => .ok t
  | .Skipped => .error .AlreadyTerminal
  | .Cleared => .error .AlreadyTerminal

/-- Modelled from the spec: the backend `/uncomplete` endpoint is absent
from `src/` (the frontend only issues `PUT /api/daily-tasks/{id}/uncomplete`
and the spec records the source's undo pathway as only partially
implemented).  `Undo` is legal only from Completed and reverts to the
status recomputed from the current time, clearing `completedAtUtc`. -/
def undoCompletion (now : Int) (t : DailyTask) : Except LedgerError DailyTask :=
  if t.status = .Completed then
    .ok { t with status := recomputeStatus now t, completedAt := none }
  else .error .NotCompleted

/-- The state captured by `TimingService`'s constructor: `currentHour` and
`currentMinutes` of the single `new Date()` sampled there. -/
structure TimingService where
  currentHour : Nat
  currentMinutes : Nat
deriving DecidableEq, Repr

/-- The constructor, from the construction-time clock (as minute of the
local day): `this.now = new Date()` is sampled once and only its hour and
minute fields are retained. -/
def newTimingService (constructionClock : Nat) : TimingService :=
  { currentHour := constructionClock / 60
    currentMinutes := constructionClock % 60 }

/-- The task-object fields `timingService.js` reads: `status`, `due_time`,
`due`, `task_name` (the latter three possibly absent). -/
structure JsTask where
  status : String
  due_time : Option String
  due : Option String
  task_name : Option String
deriving DecidableEq, Repr

/-- JavaScript `a || b` on an optional string: the empty string is falsy. -/
def jsOr (a : Option String) (b : String) : String :=
  match a with
  | some s => if s = "" then b else s
  | none => b

/-- JavaScript `String.prototype.includes`. -/
def strIncludes (hay pat : String) : Bool :=
  decide (pat.toList <:+: hay.toList)

/-- One-or-two-digit numeral at the head of the input, longest first
(the regex atom `\d{1,2}`). -/
def takeHours : List Char → Option (Nat × List Char)
  | c1 :: c2 :: rest =>
      if c1.isDigit && c2.isDigit then
        some ((c1.toNat - 48) * 10 + (c2.toNat - 48), rest)
      else if c1.isDigit then some (c1.toNat - 48, c2 :: rest)
      else none
  | [c1] => if c1.isDigit then some (c1.toNat - 48, []) else none
  | [] => none

/-- Zero-to-two-digit numeral at the head of the input, longest first (the
regex atom `\d{0,2}`); `none` when no digit is consumed, since the source
then computes `parseInt('') = NaN`. -/
def takeMinutes : List Char → Option Nat × List Char
  | c1 :: c2 :: rest =>
      if c1.isDigit && c2.isDigit then
        (some ((c1.toNat - 48) * 10 + (c2.toNat - 48)), rest)
      else if c1.isDigit then (some (c1.toNat - 48), c2 :: rest)
      else (none, c1 :: c2 :: rest)
  | [c1] => if c1.isDigit then (some (c1.toNat - 48), []) else (none, [c1])
  | [] => (none, [])

/-- The regex atom `\s*`. -/
def skipSpaces : List Char → List Char
  | c :: rest =>
      if c = ' ' || c = '\t' || c = '\n' || c = '\r' then skipSpaces rest
      else c :: rest
  | [] => []

/-- The regex atom `(AM|PM)` with the `i` flag; `true` means PM. -/
def takeAmPm : List Char → Option Bool
  | a :: b :: _ =>
      if (a = 'A' || a = 'a') && (b = 'M' || b = 'm') then some false
      else if (a = 'P' || a = 'p') && (b = 'M' || b = 'm') then some true
      else none
  | _ => none

/-- Attempt `:?\d{0,2}\s*(AM|PM)` after the hour digits. -/
def matchTimeTail (h : Nat) (cs : List Char) : Option (Nat × Option Nat × Bool) :=
  let cs := match cs with
    | ':' :: rest => rest
    | other => other
  let (m, cs) := takeMinutes cs
  match takeAmPm (skipSpaces cs) with
  | some isPM => some (h, m, isPM)
  | none => none

/-- Leftmost match of `/(\d{1,2}):?(\d{0,2})\s*(AM|PM)/i`, preferring the
two-digit hour as the regex's greedy quantifier does. -/
def findTimeMatch : List Char → Option (Nat × Option Nat × Bool)
  | [] => none
  | c :: rest =>
      match takeHours (c :: rest) with
      | some (h, cs) =>
          match matchTimeTail h cs with
          | some r => some r
          | none =>
              match c :: rest with
              | c1 :: c2 :: cs2 =>
                  if c1.isDigit && c2.isDigit then
                    match matchTimeTail (c1.toNat - 48) (c2 :: cs2) with
                    | some r => some r
                    | none => findTimeMatch rest
                  else findTimeMatch rest
              | _ => findTimeMatch rest
      | none => findTimeMatch rest

/-- `TimingService.isTaskOverdue`.  The ambient wall clock is passed
explicitly as `wallClock` to make its availability to the method visible;
mirroring the source, the body reads only the constructor-captured
`currentHour`/`currentMinutes` and never consults it. -/
def isTaskOverdueAt (wallClock : Int) (svc : TimingService) (task : JsTask) :
    Bool :=
  if task.status = "Completed" then false
  else
    let dueTime := jsOr task.due_time (jsOr task.due "Anytime")
    let taskName := jsOr (task.task_name.map String.toLower) ""
    if strIncludes dueTime.toLower "morning" || strIncludes taskName "morning" then
      decide (12 ≤ svc.currentHour)
    else if strIncludes dueTime.toLower "lunch" || strIncludes taskName "lunch" then
      decide (14 ≤ svc.currentHour)
    else if strIncludes dueTime.toLower "afternoon" || strIncludes taskName "afternoon" then
      decide (18 ≤ svc.currentHour)
    else if strIncludes dueTime.toLower "evening" || strIncludes taskName "evening" then
      decide (23 ≤ svc.currentHour)
    else if strIncludes dueTime.toLower "night" || strIncludes taskName "night" then
      decide (2 ≤ svc.currentHour) && decide (svc.currentHour < 6)
    else
      match findTimeMatch dueTime.toList with
      | some (h, m, isPM) =>
          let dueHour :=
            if isPM && h ≠ 12 then h + 12
            else if !isPM && h = 12 then 0
            else h
          match m with
          | some mins =>
              decide (dueHour * 60 + mins + 60 < svc.currentHour * 60 + svc.currentMinutes)
          | none => false
      | none => false

/-- `TimingService.isTaskDueNow`, with the same explicit (unused) ambient
clock. -/
def isTaskDueNowAt (wallClock : Int) (svc : TimingService) (task : JsTask) :
    Bool :=
  if task.status = "Completed" then false
  else
    let dueTime := jsOr task.due_time (jsOr task.due "Anytime")
    let taskName := jsOr (task.task_name.map String.toLower) ""
    if strIncludes dueTime.toLower "morning" || strIncludes taskName "morning" then
      decide (6 ≤ svc.currentHour) && decide (svc.currentHour < 12)
    else if strIncludes dueTime.toLower "lunch" || strIncludes taskName "lunch" then
      decide (11 ≤ svc.currentHour) && decide (svc.currentHour < 14)
    else if strIncludes dueTime.toLower "afternoon" || strIncludes taskName "afternoon" then
      decide (12 ≤ svc.currentHour) && decide (svc.currentHour < 18)
    else if strIncludes dueTime.toLower "evening" || strIncludes taskName "evening" then
      decide (17 ≤ svc.currentHour) && decide (svc.currentHour < 23)
    else if strIncludes dueTime.toLower "night" || strIncludes taskName "night" then
      decide (21 ≤ svc.currentHour) || decide (svc.currentHour < 2)
    else false

/-- `TimingService.getTaskPriority`, with the same explicit (unused)
ambient clock. -/
def getTaskPriorityAt (wallClock : Int) (svc : TimingService) (task : JsTask) :
    Nat :=
  if task.status = "Completed" then 0
  else if isTaskOverdueAt wallClock svc task then 100
  else if isTaskDueNowAt wallClock svc task then 50
  else 10

/-! ## Concrete fixtures -/

/-- America/New_York daylight-saving offset (UTC−4), in force on the
2024-08 dates used below. -/
def offEDT : LocalDate → Int := fun _ => -240

/-- A Pending instance whose overdue instant is the epoch. -/
def pendingAtZero : DailyTask :=
  { recurringId := 1, date := ⟨2024, 8, 2⟩, dueTs := 0, overdueTs := 0
    clearTs := 300, status := .Pending, completedAt := none }

/-- Daily Evening definition with a 1-hour overdue delay (the spec's §8
worked example). -/
def eveningOneHour : RecurringTask :=
  ⟨3, .Daily, "Evening", .OneHour, true⟩

/-- Daily Evening definition with a 1-day overdue delay. -/
def eveningOneDay : RecurringTask :=
  ⟨7, .Daily, "Evening", .OneDay, true⟩

/-- Weekly Sunday definition with a 1-hour overdue delay. -/
def weeklySunday : RecurringTask :=
  ⟨8, .Weekly, "Sunday", .OneHour, true⟩

/-- Monthly definition due on the 31st. -/
def monthly31 : RecurringTask :=
  ⟨9, .Monthly, "31", .Immediate, true⟩

/-! ## C1 -/

/-- C1 counterexample: at `now` exactly equal to `overdueAtUtc` the claim
says a Pending instance transitions to Overdue (`now ≥ overdueAtUtc`), but
`update_task_statuses` only transitions when `overdue_at < now()`, so the
instance stays Pending. -/
theorem c1_counterexample :
    pendingAtZero.status = .Pending ∧ (0 : Int) ≥ pendingAtZero.overdueTs ∧
    updateTaskStatus 0 pendingAtZero = pendingAtZero := by decide

/-- C1 (amended): a single status update turns a Pending instance Overdue
iff `overdueAtUtc < now` (strict), and leaves Completed and Skipped
instances unchanged for every `now`. -/
theorem c1_lifecycle_advance (t : DailyTask) (now : Int) :
    (t.status = .Pending →
      ((updateTaskStatus now t).status = .Overdue ↔ t.overdueTs < now)) ∧
    (t.status = .Completed ∨ t.status = .Skipped →
      updateTaskStatus now t = t) := by
  constructor
  · intro hp
    by_cases h : t.overdueTs < now <;> simp [updateTaskStatus, hp, h]
  · rintro (hc | hc) <;> simp [updateTaskStatus, hc]

/-- C1 witness: the amended statement at a concrete Pending instance and a
later `now`. -/
theorem c1_lifecycle_advance_witness :
    (updateTaskStatus 5 pendingAtZero).status = .Overdue ↔
      pendingAtZero.overdueTs < 5 :=
  (c1_lifecycle_advance pendingAtZero 5).1 rfl

/-! ## C2 -/

/-- C2 counterexample: the Daily Evening definition with a 1-day overdue
delay, generated for 2024-08-02 in the UTC−4 zone, produces an instance
with `clearAtUtc < overdueAtUtc` — the claimed creation invariant
`overdueAtUtc ≤ clearAtUtc` fails. -/
theorem c2_counterexample :
    generateForDate offEDT ⟨2024, 8, 2⟩ [eveningOneDay] []
      = [mkTask offEDT eveningOneDay ⟨2024, 8, 2⟩ 1140] ∧
    ¬ (mkTask offEDT eveningOneDay ⟨2024, 8, 2⟩ 1140).overdueTs ≤
        (mkTask offEDT eveningOneDay ⟨2024, 8, 2⟩ 1140).clearTs := by decide

/-- C2 (amended): every generated instance satisfies
`dueAtUtc ≤ overdueAtUtc`, and `overdueAtUtc ≤ clearAtUtc` holds for
Weekly and Monthly frequencies; for Daily instances the second bound can
fail. -/
theorem c2_timestamp_order (off : LocalDate → Int) (rt : RecurringTask)
    (d : LocalDate) (m : Nat) :
    (mkTask off rt d m).dueTs ≤ (mkTask off rt d m).overdueTs ∧
    (rt.frequency = .Weekly ∨ rt.frequency = .Monthly →
      (mkTask off rt d m).overdueTs ≤ (mkTask off rt d m).clearTs) := by
  constructor
  · have h : 0 ≤ overdueMinutes rt.overdueWhen := by
      cases rt.overdueWhen <;> simp [overdueMinutes]
    simp only [mkTask]
    omega
  · have h : overdueMinutes rt.overdueWhen ≤ 1440 := by
      cases rt.overdueWhen <;> simp [overdueMinutes]
    rintro (hf | hf) <;> simp only [mkTask, clearTimestamp, hf] <;> omega

/-- C2 witness: the amended statement at a concrete Weekly instance. -/
theorem c2_timestamp_order_witness :
    (mkTask offEDT weeklySunday ⟨2024, 8, 4⟩ 540).dueTs ≤
        (mkTask offEDT weeklySunday ⟨2024, 8, 4⟩ 540).overdueTs ∧
      (mkTask offEDT weeklySunday ⟨2024, 8, 4⟩ 540).overdueTs ≤
        (mkTask offEDT weeklySunday ⟨2024, 8, 4⟩ 540).clearTs :=
  ⟨(c2_timestamp_order offEDT weeklySunday ⟨2024, 8, 4⟩ 540).1,
   (c2_timestamp_order offEDT weeklySunday ⟨2024, 8, 4⟩ 540).2 (Or.inl rfl)⟩

/-! ## C3 -/

/-- C3: the Daily Evening 1-hour definition generated for 2024-08-02 in
the UTC−4 zone yields `dueAtUtc = 2024-08-02T23:00Z` and
`overdueAtUtc = 2024-08-03T00:00Z` as claimed, but
`calculate_clear_timestamp` hard-codes `next_day.replace(hour=5)` ("5 AM
UTC = midnight EST"), so `clearAtUtc = 2024-08-03T05:00Z`, not the next
local midnight `04:00Z` that both the claim and the code's own "clear at
next local midnight" comment prescribe. -/
theorem c3_evening_example_eval :
    generateForDate offEDT ⟨2024, 8, 2⟩ [eveningOneHour] []
      = [mkTask offEDT eveningOneHour ⟨2024, 8, 2⟩ 1140] ∧
    (mkTask offEDT eveningOneHour ⟨2024, 8, 2⟩ 1140).dueTs = utc 2024 8 2 23 0 ∧
    (mkTask offEDT eveningOneHour ⟨2024, 8, 2⟩ 1140).overdueTs = utc 2024 8 3 0 0 ∧
    (mkTask offEDT eveningOneHour ⟨2024, 8, 2⟩ 1140).clearTs = utc 2024 8 3 5 0 ∧
    (mkTask offEDT eveningOneHour ⟨2024, 8, 2⟩ 1140).clearTs ≠ utc 2024 8 3 4 0 := by
  decide

/-! ## C5 -/

/-- C5: Undo on a Completed instance recomputes the status from the
current time against the stored overdue and clear instants (Overdue when
`overdueAtUtc ≤ now < clearAtUtc`), clearing the completion timestamp; on
any other status it fails with NotCompleted. -/
theorem c5_undo_recompute (t : DailyTask) (now : Int) :
    (t.status = .Completed →
      undoCompletion now t =
        .ok { t with status := recomputeStatus now t, completedAt := none } ∧
      (t.overdueTs ≤ now → now < t.clearTs → recomputeStatus now t = .Overdue)) ∧
    (t.status ≠ .Completed → undoCompletion now t = .error .NotCompleted) := by
  constructor
  · intro hc
    refine ⟨by simp [undoCompletion, hc], ?_⟩
    intro h1 h2
    simp [recomputeStatus, h2, Int.not_lt.mpr h1]
  · intro hc
    simp [undoCompletion, hc]

/-- C5 witness: a concrete instance completed before its overdue instant
and undone between the overdue and clear instants returns to Overdue. -/
theorem c5_undo_recompute_witness :
    undoCompletion 100 { pendingAtZero with status := .Completed, completedAt := some (-10) } =
      .ok { pendingAtZero with status := .Overdue, completedAt := none } ∧
    undoCompletion 100 pendingAtZero = .error .NotCompleted := by
  refine ⟨?_, ?_⟩
  · have h := (c5_undo_recompute
      { pendingAtZero with status := .Completed, completedAt := some (-10) } 100).1 rfl
    have hs : recomputeStatus 100
        { pendingAtZero with status := .Completed, completedAt := some (-10) } = .Overdue :=
      h.2 (by decide) (by decide)
    simpa [hs] using h.1
  · exact (c5_undo_recompute pendingAtZero 100).2 (by decide)

/-! ## C8 -/

/-- C8 counterexample: a Weekly instance with a 1-hour overdue delay has
`clearAtUtc = dueAtUtc + 7 days`, which differs from the claimed
`overdueAtUtc + 7 days` — `calculate_clear_timestamp` measures the clear
instant from `due_timestamp`, not from the overdue instant. -/
theorem c8_counterexample :
    generateForDate offEDT ⟨2024, 8, 4⟩ [weeklySunday] []
      = [mkTask offEDT weeklySunday ⟨2024, 8, 4⟩ 540] ∧
    (mkTask offEDT weeklySunday ⟨2024, 8, 4⟩ 540).clearTs ≠
      (mkTask offEDT weeklySunday ⟨2024, 8, 4⟩ 540).overdueTs + 7 * 1440 := by
  decide

/-- C8 (amended): for every generated instance, Weekly clears at
`dueAtUtc + 7 days` and Monthly at `dueAtUtc + 30 days`; these equal
`overdueAtUtc + 7/30 days` exactly when `overdueAfter` is Immediate. -/
theorem c8_clear_offsets (off : LocalDate → Int) (rt : RecurringTask)
    (d : LocalDate) (m : Nat) :
    (rt.frequency = .Weekly →
      (mkTask off rt d m).clearTs = (mkTask off rt d m).dueTs + 7 * 1440) ∧
    (rt.frequency = .Monthly →
      (mkTask off rt d m).clearTs = (mkTask off rt d m).dueTs + 30 * 1440) ∧
    (rt.overdueWhen = .Immediate →
      (mkTask off rt d m).overdueTs = (mkTask off rt d m).dueTs) := by
  refine ⟨fun hf => ?_, fun hf => ?_, fun hw => ?_⟩
  · simp [mkTask, clearTimestamp, hf]
  · simp [mkTask, clearTimestamp, hf]
  · simp [mkTask, overdueMinutes, hw]

/-- C8 witness: the amended statement at a concrete Weekly instance. -/
theorem c8_clear_offsets_witness :
    (mkTask offEDT weeklySunday ⟨2024, 8, 4⟩ 540).clearTs =
      (mkTask offEDT weeklySunday ⟨2024, 8, 4⟩ 540).dueTs + 7 * 1440 :=
  (c8_clear_offsets offEDT weeklySunday ⟨2024, 8, 4⟩ 540).1 rfl

/-! ## C9 -/

/-- C9: Complete succeeds from Pending or Overdue, setting the status to
Completed and `completedAtUtc = now`; it fails with AlreadyTerminal on
Cleared or Skipped instances (leaving them unchanged); and it is an
idempotent no-op on an already Completed instance. -/
theorem c9_complete_transitions (t : DailyTask) (now : Int) :
    (t.status = .Pending ∨ t.status = .Overdue →
      completeTask now t =
        .ok { t with status := .Completed, completedAt := some now }) ∧
    (t.status = .Cleared ∨ t.status = .Skipped →
      completeTask now t = .error .AlreadyTerminal) ∧
    (t.status = .Completed → completeTask now t = .ok t) := by
  refine ⟨?_, ?_, ?_⟩
  · rintro (h | h) <;> simp [completeTask, h]
  · rintro (h | h) <;> simp [completeTask, h]
  · intro h; simp [completeTask, h]

/-- C9 witness: the statement at a concrete Pending instance. -/
theorem c9_complete_transitions_witness :
    completeTask 42 pendingAtZero =
      .ok { pendingAtZero with status := .Completed, completedAt := some 42 } :=
  (c9_complete_transitions pendingAtZero 42).1 (Or.inl rfl)

/-! ## C10 -/

/-- C10: the results of `isTaskOverdue`, `isTaskDueNow` and
`getTaskPriority` on a `TimingService` built from a given construction
clock are independent of the wall-clock time at which the call is made —
the reported status is a function of the task and the construction-time
clock only. -/
theorem c10_clock_independence :
    ∀ (wall₁ wall₂ : Int) (ctor : Nat) (task : JsTask),
      isTaskOverdueAt wall₁ (newTimingService ctor) task
        = isTaskOverdueAt wall₂ (newTimingService ctor) task ∧
      isTaskDueNowAt wall₁ (newTimingService ctor) task
        = isTaskDueNowAt wall₂ (newTimingService ctor) task ∧
      getTaskPriorityAt wall₁ (newTimingService ctor) task
        = getTaskPriorityAt wall₂ (newTimingService ctor) task :=
  fun _ _ _ _ => ⟨rfl, rfl, rfl⟩

/-! ## C6 -/

/-- C6 counterexample: `Afternoon` is not an admissible Daily due
descriptor in the source — `validate_due` accepts only Morning and Evening
for Daily tasks — so the resolver does not map it to 13:00 local. -/
theorem c6_counterexample :
    validateDue .Daily "Afternoon" = false ∧
    resolveDue .Daily "Afternoon" = none ∧
    resolveDue .Daily "Afternoon" ≠ some 780 := by decide

/-- C6 (amended): Daily definitions are eligible on every local date; the
resolver maps Morning to 09:00 and Evening to 19:00 local (Afternoon being
rejected by upstream validation); and every generated instance's overdue
instant is computed from the resolved due instant plus the overdue
delay. -/
theorem c6_daily_resolution :
    (∀ (rt : RecurringTask) (d : LocalDate),
      rt.frequency = .Daily → eligibleFreq rt d = true) ∧
    resolveDue .Daily "Morning" = some 540 ∧
    resolveDue .Daily "Evening" = some 1140 ∧
    (∀ (off : LocalDate → Int) (rt : RecurringTask) (d : LocalDate) (m : Nat),
      (mkTask off rt d m).overdueTs = toUtc off d m + overdueMinutes rt.overdueWhen) := by
  refine ⟨fun rt d h => by simp [eligibleFreq, h], by decide, by decide, ?_⟩
  intro off rt d m
  rfl

/-- C6 witness: the amended statement instantiated at a concrete Daily
definition and date. -/
theorem c6_daily_resolution_witness :
    eligibleFreq eveningOneHour ⟨2024, 8, 2⟩ = true :=
  c6_daily_resolution.1 eveningOneHour ⟨2024, 8, 2⟩ rfl

/-! ## C7 -/

/-- No Gregorian month is longer than 31 days. -/
theorem daysInMonth_le_31 (y m : Nat) : daysInMonth y m ≤ 31 := by
  unfold daysInMonth
  split
  · split <;> omega
  · split <;> omega

/-- C7: a Monthly definition with numeric due day `n` generates an
instance for a valid local date exactly when the date's day-of-month
equals `n`; in particular, for every valid date of a month shorter than
`n` days, nothing at all is generated (no end-of-month rollover). -/
theorem c7_monthly_gating (off : LocalDate → Int) (rt : RecurringTask)
    (d : LocalDate) (n : Nat) (hf : rt.frequency = .Monthly)
    (ha : rt.active = true) (hn : parseNat rt.due = some n) (hv : d.valid) :
    (hasInstance (generateForDate off d [rt] []) rt.id d = true ↔ d.day = n) ∧
    (daysInMonth d.year d.month < n → generateForDate off d [rt] [] = []) := by
  obtain ⟨-, -, hd1, hd2⟩ := hv
  by_cases hd : d.day = n
  · have h1 : 1 ≤ n := hd ▸ hd1
    have h2 : n ≤ 31 := le_trans (hd ▸ hd2) (daysInMonth_le_31 _ _)
    have hres : resolveDue rt.frequency rt.due = some 540 := by
      simp [hf, resolveDue, validateDue, hn, h1, h2]
    have helig : eligibleFreq rt d = true := by
      simp [eligibleFreq, hf, hn, hd]
    have hgen : generateForDate off d [rt] [] = [mkTask off rt d 540] := by
      simp [generateForDate, genStep, hres, helig, ha, hasInstance]
    refine ⟨?_, fun hlt => absurd (hd ▸ hd2) (by omega)⟩
    simp [hgen, hasInstance, matchesPair, mkTask, hd]
  · have helig : eligibleFreq rt d = false := by
      simp [eligibleFreq, hf, hn, hd]
    have hgen : generateForDate off d [rt] [] = [] := by
      cases hres : resolveDue rt.frequency rt.due <;>
        simp [generateForDate, genStep, hres, helig]
    exact ⟨by simp [hgen, hasInstance, hd], fun _ => hgen⟩

/-- C7 witness: the Monthly definition due the 31st generates nothing for
2024-02-29, a valid date of a month with fewer than 31 days. -/
theorem c7_monthly_gating_witness :
    generateForDate offEDT ⟨2024, 2, 29⟩ [monthly31] [] = [] :=
  (c7_monthly_gating offEDT monthly31 ⟨2024, 2, 29⟩ 31 rfl rfl (by decide)
    (by decide)).2 (by decide)

/-! ## C4 -/

/-- A generation step inserts the fresh instance when the definition
resolves, is active and eligible, and its pair is not yet populated. -/
theorem genStep_insert (off : LocalDate → Int) (d : LocalDate)
    (s : List DailyTask) (rt : RecurringTask) (m : Nat)
    (hres : resolveDue rt.frequency rt.due = some m)
    (hcond : (rt.active && eligibleFreq rt d && !hasInstance s rt.id d) = true) :
    genStep off d s rt = mkTask off rt d m :: s := by
  unfold genStep
  rw [hres]
  simp [hcond]

/-- A generation step is the identity when the definition does not resolve
or the insert condition fails. -/
theorem genStep_skip (off : LocalDate → Int) (d : LocalDate)
    (s : List DailyTask) (rt : RecurringTask)
    (h : resolveDue rt.frequency rt.due = none ∨
      (rt.active && eligibleFreq rt d && !hasInstance s rt.id d) = false) :
    genStep off d s rt = s := by
  unfold genStep
  cases hres : resolveDue rt.frequency rt.due with
  | none => rfl
  | some m =>
    rcases h with h | h
    · rw [hres] at h; cases h
    · simp [h]

/-- Stored instances survive a generation step. -/
theorem hasInstance_genStep_mono (off : LocalDate → Int) (d : LocalDate)
    (s : List DailyTask) (rt : RecurringTask) (rid : Nat) (dd : LocalDate)
    (h : hasInstance s rid dd = true) :
    hasInstance (genStep off d s rt) rid dd = true := by
  cases hres : resolveDue rt.frequency rt.due with
  | none => rwa [genStep_skip off d s rt (Or.inl hres)]
  | some m =>
    by_cases hc : (rt.active && eligibleFreq rt d && !hasInstance s rt.id d) = true
    · rw [genStep_insert off d s rt m hres hc]
      simp only [hasInstance, List.any_cons, Bool.or_eq_true]
      exact Or.inr h
    · rw [genStep_skip off d s rt (Or.inr (Bool.eq_false_iff.mpr hc))]
      exact h

/-- A generation step leaves the pair of a ready definition populated. -/
theorem hasInstance_genStep_self (off : LocalDate → Int) (d : LocalDate)
    (s : List DailyTask) (rt : RecurringTask)
    (h : genReady rt d = true) :
    hasInstance (genStep off d s rt) rt.id d = true := by
  unfold genReady at h
  cases hres : resolveDue rt.frequency rt.due with
  | none => rw [hres] at h; simp at h
  | some m =>
    rw [hres] at h
    simp only [Option.isSome_some, Bool.and_true, Bool.and_eq_true] at h
    by_cases hhas : hasInstance s rt.id d = true
    · have hcf : (rt.active && eligibleFreq rt d && !hasInstance s rt.id d) = false := by
        simp [hhas]
      rw [genStep_skip off d s rt (Or.inr hcf)]
      exact hhas
    · have hhf : hasInstance s rt.id d = false := Bool.eq_false_iff.mpr hhas
      have hc : (rt.active && eligibleFreq rt d && !hasInstance s rt.id d) = true := by
        simp [h.1, h.2, hhf]
      rw [genStep_insert off d s rt m hres hc]
      simp [hasInstance, List.any_cons, matchesPair, mkTask]

/-- Stored instances survive a whole generation pass. -/
theorem hasInstance_foldl_mono (off : LocalDate → Int) (d : LocalDate)
    (defs : List RecurringTask) (s : List DailyTask) (rid : Nat)
    (dd : LocalDate) (h : hasInstance s rid dd = true) :
    hasInstance (List.foldl (genStep off d) s defs) rid dd = true := by
  induction defs generalizing s with
  | nil => exact h
  | cons rt0 defs ih =>
    exact ih _ (hasInstance_genStep_mono off d s rt0 rid dd h)

/-- After a generation pass, every ready definition's pair is populated. -/
theorem hasInstance_generate (off : LocalDate → Int) (d : LocalDate)
    (defs : List RecurringTask) (s : List DailyTask) :
    ∀ rt ∈ defs, genReady rt d = true →
      hasInstance (generateForDate off d defs s) rt.id d = true := by
  induction defs generalizing s with
  | nil => intro rt h; cases h
  | cons rt0 defs ih =>
    intro rt hmem hready
    rcases List.mem_cons.mp hmem with heq | hmem'
    · subst heq
      exact hasInstance_foldl_mono off d defs _ rt.id d
        (hasInstance_genStep_self off d s rt hready)
    · exact ih (genStep off d s rt0) rt hmem' hready

/-- A generation step is the identity when the definition's pair is
already populated (or the definition is not ready). -/
theorem genStep_noop (off : LocalDate → Int) (d : LocalDate)
    (s : List DailyTask) (rt : RecurringTask)
    (h : genReady rt d = true → hasInstance s rt.id d = true) :
    genStep off d s rt = s := by
  cases hres : resolveDue rt.frequency rt.due with
  | none => exact genStep_skip off d s rt (Or.inl hres)
  | some m =>
    by_cases hae : (rt.active && eligibleFreq rt d) = true
    · simp only [Bool.and_eq_true] at hae
      have hready : genReady rt d = true := by
        unfold genReady
        rw [hres]
        simp [hae.1, hae.2]
      have hhas := h hready
      exact genStep_skip off d s rt (Or.inr (by simp [hhas]))
    · simp only [Bool.and_eq_true, not_and_or, Bool.not_eq_true] at hae
      refine genStep_skip off d s rt (Or.inr ?_)
      rcases hae with hae | hae <;> simp [hae]

/-- A generation pass is the identity when every ready definition's pair
is already populated. -/
theorem generate_noop (off : LocalDate → Int) (d : LocalDate)
    (defs : List RecurringTask) (s : List DailyTask)
    (h : ∀ rt ∈ defs, genReady rt d = true → hasInstance s rt.id d = true) :
    generateForDate off d defs s = s := by
  induction defs with
  | nil => rfl
  | cons rt0 defs ih =>
    have h0 : genStep off d s rt0 = s :=
      genStep_noop off d s rt0 (h rt0 (List.mem_cons_self _ _))
    simp only [generateForDate, List.foldl_cons, h0]
    exact ih fun rt hm => h rt (List.mem_cons_of_mem _ hm)

/-- A generation step never pushes a pair's instance count above one. -/
theorem pairCount_genStep (off : LocalDate → Int) (d : LocalDate)
    (s : List DailyTask) (rt : RecurringTask) (rid : Nat) (dd : LocalDate)
    (h : pairCount s rid dd ≤ 1) :
    pairCount (genStep off d s rt) rid dd ≤ 1 := by
  cases hres : resolveDue rt.frequency rt.due with
  | none => rwa [genStep_skip off d s rt (Or.inl hres)]
  | some m =>
    by_cases hc : (rt.active && eligibleFreq rt d && !hasInstance s rt.id d) = true
    · rw [genStep_insert off d s rt m hres hc]
      by_cases hm : matchesPair rid dd (mkTask off rt d m) = true
      · have hpair : rt.id = rid ∧ d = dd := by
          simpa [matchesPair, mkTask] using hm
        obtain ⟨hp1, hp2⟩ := hpair
        subst hp1
        subst hp2
        have hhf : hasInstance s rt.id d = false := by
          simp only [Bool.and_eq_true, Bool.not_eq_true'] at hc
          exact hc.2
        have hzero : pairCount s rt.id d = 0 := by
          simp only [hasInstance, List.any_eq_false] at hhf
          simp only [pairCount, List.countP_eq_zero]
          exact fun a ha => by simpa using hhf a ha
        simp only [pairCount] at hzero ⊢
        rw [List.countP_cons]
        simp [hzero, hm]
      · simp only [Bool.not_eq_true] at hm
        simp only [pairCount] at h ⊢
        rw [List.countP_cons]
        simpa [hm] using h
    · rwa [genStep_skip off d s rt (Or.inr (Bool.eq_false_iff.mpr hc))]

/-- A generation pass never pushes a pair's instance count above one. -/
theorem pairCount_generate (off : LocalDate → Int) (d : LocalDate)
    (defs : List RecurringTask) (s : List DailyTask) (rid : Nat)
    (dd : LocalDate) (h : pairCount s rid dd ≤ 1) :
    pairCount (generateForDate off d defs s) rid dd ≤ 1 := by
  induction defs generalizing s with
  | nil => exact h
  | cons rt0 defs ih =>
    exact ih _ (pairCount_genStep off d s rt0 rid dd h)

/-- A populated pair has a positive instance count. -/
theorem pairCount_pos_of_hasInstance (s : List DailyTask) (rid : Nat)
    (dd : LocalDate) (h : hasInstance s rid dd = true) :
    0 < pairCount s rid dd := by
  simp only [hasInstance, List.any_eq_true] at h
  obtain ⟨t, ht, hp⟩ := h
  exact List.countP_pos_iff.mpr ⟨t, ht, hp⟩

/-- C4: starting from a store with at most one instance per
`(sourceDefinitionId, localDate)` pair, running `GenerateForDate` twice
equals running it once; the at-most-one invariant is preserved; and every
ready definition ends with exactly one instance for the target date. -/
theorem c4_generation_idempotent (off : LocalDate → Int) (d : LocalDate)
    (defs : List RecurringTask) (s : List DailyTask)
    (hinv : ∀ rid dd, pairCount s rid dd ≤ 1) :
    generateForDate off d defs (generateForDate off d defs s)
      = generateForDate off d defs s ∧
    (∀ rid dd, pairCount (generateForDate off d defs s) rid dd ≤ 1) ∧
    (∀ rt ∈ defs, genReady rt d = true →
      pairCount (generateForDate off d defs s) rt.id d = 1) := by
  refine ⟨generate_noop off d defs _ (hasInstance_generate off d defs s),
    fun rid dd => pairCount_generate off d defs s rid dd (hinv rid dd), ?_⟩
  intro rt hm hr
  have h1 := hasInstance_generate off d defs s rt hm hr
  have h2 := pairCount_generate off d defs s rt.id d (hinv rt.id d)
  have h3 := pairCount_pos_of_hasInstance _ rt.id d h1
  omega

/-- C4 witness: a concrete Daily definition on an empty store — the second
run changes nothing and the pair holds exactly one instance. -/
theorem c4_generation_idempotent_witness :
    generateForDate offEDT ⟨2024, 8, 2⟩ [eveningOneHour]
        (generateForDate offEDT ⟨2024, 8, 2⟩ [eveningOneHour] [])
      = generateForDate offEDT ⟨2024, 8, 2⟩ [eveningOneHour] [] ∧
    pairCount (generateForDate offEDT ⟨2024, 8, 2⟩ [eveningOneHour] [])
      eveningOneHour.id ⟨2024, 8, 2⟩ = 1 := by
  have h := c4_generation_idempotent offEDT ⟨2024, 8, 2⟩ [eveningOneHour] []
    (fun rid dd => by simp [pairCount])
  exact ⟨h.1, h.2.2 eveningOneHour (List.mem_singleton.mpr rfl) (by decide)⟩

end HouseMgmt
